import Mathlib

/-!
Shallow embedding of the DatoCMS "Asset Localization Checker" plugin.

The embedded code is `src/components/AssetLocalizationChecker.tsx` (the
current, Map-based component) together with the earlier list-based revision
of the same component (`metadataByLocale` built by `flatMap`, then
`missingAlts` / `missingTitles` by `filter`).

Conventions of the embedding:
- TypeScript `string | null | undefined` becomes `Option String`; JS
  truthiness on such a value (`!v`, `!!v`) is `strFalsy` / `strTruthy`
  (both `null`/`undefined` and the empty string are falsy).
- JS nullish coalescing `a ?? b` is `jsNullish` (only `null`/`undefined`
  fall through; the empty string does not).
- The asset's `default_field_metadata` object is a lookup function
  `String → Option LocaleMeta` (the code only ever indexes it by locale).
- The JS `Map` `assetLevelMetadataByLocale` is an association list in
  insertion order; `Map.get` is `List.lookup`.
- React rendering is a pure function from the component's inputs and
  fetched state to a `View`; the imperative effects fired on mount
  (`ctx.alert`, the CMA `uploads.find` fetch) are a `List Effect`.
-/

namespace AssetLocalizationChecker

/-- JS truthiness test `!v` for an optional string: `undefined`, `null`
and the empty string are falsy. -/
def strFalsy : Option String → Bool
  | none => true
  | some s => s == ""

/-- JS double negation `!!v` for an optional string. -/
def strTruthy (v : Option String) : Bool := !(strFalsy v)

/-- JS nullish coalescing `a ?? b`: `a` unless it is `null`/`undefined`. -/
def jsNullish : Option String → Option String → Option String
  | some s, _ => some s
  | none, b => b

/-- One entry of the asset's `default_field_metadata` map:
`{ alt: string | null, title: string | null }`. -/
structure LocaleMeta where
  alt : Option String
  title : Option String
deriving DecidableEq

/-- The asset-level `default_field_metadata` map, read only by locale key. -/
abbrev Metadata : Type := String → Option LocaleMeta

/-- The `FileFieldValue` stored at the field path: the upload id plus the
optional field-level alt/title overrides. -/
structure FileFieldValue where
  upload_id : String
  alt : Option String
  title : Option String
deriving DecidableEq

/-- The slice of the CMA `Upload` record the component uses. -/
structure Upload where
  default_field_metadata : Option Metadata
  filename : Option String

/-- The `required_alt_title` validator payload. -/
structure AltTitleFlags where
  title : Bool
  alt : Bool
deriving DecidableEq

/-- The slice of the host-provided `RenderFieldExtensionCtx` the component
reads: token, the field value at `fieldPath`, the record's locales
(`formValues.internalLocales`), validators, the active locale, and the
field's `localized` attribute and label. -/
structure Ctx where
  currentUserAccessToken : Option String
  imageField : FileFieldValue
  internalLocales : Option (List String)
  required_alt_title : Option AltTitleFlags
  locale : String
  localized : Bool
  label : String

/-- Result of the first `useMemo` (lines 98-126): the per-locale
asset-level metadata map plus the aggregate lists of locales whose
asset-level alt / title is falsy. -/
structure ReconAggregates where
  assetLevelMetadataByLocale : List (String × LocaleMeta)
  localesMissingAlts : List String
  localesMissingTitles : List String
deriving DecidableEq

/-- The body of the first `useMemo` loop: for each record locale, read
`metadata[locale]?.alt ?? null` and `metadata[locale]?.title ?? null`,
record the map entry, and push the locale onto the missing-alt
(resp. missing-title) list when the value is falsy. -/
def reconAggregatesLoop (metadata : Metadata) : List String → ReconAggregates
  | [] => ⟨[], [], []⟩
  | locale :: rest =>
    let alt := (metadata locale).bind LocaleMeta.alt
    let title := (metadata locale).bind LocaleMeta.title
    let r := reconAggregatesLoop metadata rest
    ⟨(locale, ⟨alt, title⟩) :: r.assetLevelMetadataByLocale,
     if strFalsy alt then locale :: r.localesMissingAlts else r.localesMissingAlts,
     if strFalsy title then locale :: r.localesMissingTitles else r.localesMissingTitles⟩

/-- The first `useMemo`, guard included: the loop runs only when both
`metadata` and `localesInThisRecord` are truthy (non-null); otherwise the
map and both aggregate lists stay empty. -/
def reconAggregates (metadata : Option Metadata)
    (localesInThisRecord : Option (List String)) : ReconAggregates :=
  match metadata, localesInThisRecord with
  | some m, some locales => reconAggregatesLoop m locales
  | _, _ => ⟨[], [], []⟩

/-- Result of the second `useMemo` (lines 129-153): the current locale's
missing flags and effective ("actual") alt/title. -/
structure CurrentLocaleResult where
  isMissingAlt : Bool
  isMissingTitle : Bool
  actualAlt : String
  actualTitle : String
deriving DecidableEq

/-- The second `useMemo`: look the current locale up in
`assetLevelMetadataByLocale`; if absent, fall back to the field-level
values alone; otherwise combine: `isMissingAlt = !fieldLevelAlt && !alt`
and `actualAlt = fieldLevelAlt ?? alt ?? ""` (same for title). -/
def currentLocaleLookup (assetLevelMetadataByLocale : List (String × LocaleMeta))
    (locale : String) (fieldLevelAlt fieldLevelTitle : Option String) :
    CurrentLocaleResult :=
  match assetLevelMetadataByLocale.lookup locale with
  | none =>
    ⟨strFalsy fieldLevelAlt, strFalsy fieldLevelTitle,
     fieldLevelAlt.getD "", fieldLevelTitle.getD ""⟩
  | some meta =>
    ⟨strFalsy fieldLevelAlt && strFalsy meta.alt,
     strFalsy fieldLevelTitle && strFalsy meta.title,
     (jsNullish fieldLevelAlt meta.alt).getD "",
     (jsNullish fieldLevelTitle meta.title).getD ""⟩

/-- The list item `currentLocaleChecker` renders for one attribute
(title or alt): a required/optional missing warning, the field-level
override info line (with the extra override warning when the field is not
localized and the active locale is not the default), or the asset-level
success line. -/
inductive CheckerLine where
  | missingRequired
  | missingOptional
  | fieldLevelInfo (overrideWarning : Bool)
  | assetLevelOk
deriving DecidableEq

/-- The branch structure of `currentLocaleChecker` (lines 212-282). -/
def currentLocaleChecker (isMissing isRequired isFieldLevel isFieldLocalized : Bool)
    (locale defaultLocale : String) : CheckerLine :=
  if isMissing then
    if isRequired then .missingRequired else .missingOptional
  else if isFieldLevel then
    .fieldLevelInfo (!isFieldLocalized && locale != defaultLocale)
  else
    .assetLevelOk

/-- Everything the component derives from one snapshot of its inputs:
the aggregate memo, the current-locale memo, the `isFieldLevel` props
passed to `currentLocaleChecker` (computed as `!!fieldLevelAlt` /
`!!fieldLevelTitle` at the call sites, lines 289-303), and the two
rendered checker lines. -/
structure Reconciliation where
  aggregates : ReconAggregates
  current : CurrentLocaleResult
  isFieldLevelAlt : Bool
  isFieldLevelTitle : Bool
  altLine : CheckerLine
  titleLine : CheckerLine
deriving DecidableEq

/-- The full reconciliation pipeline of the current component, from raw
inputs to the rendered per-locale lines. The required-ness flags
(`isAltRequired` / `isTitleRequired`, from the validators) feed only the
checker lines. -/
def reconcile (metadata : Option Metadata) (localesInThisRecord : Option (List String))
    (fieldLevelAlt fieldLevelTitle : Option String) (locale : String)
    (isAltRequired isTitleRequired : Bool) (isFieldLocalized : Bool)
    (defaultLocale : String) : Reconciliation :=
  let agg := reconAggregates metadata localesInThisRecord
  let cur := currentLocaleLookup agg.assetLevelMetadataByLocale locale
    fieldLevelAlt fieldLevelTitle
  { aggregates := agg
    current := cur
    isFieldLevelAlt := strTruthy fieldLevelAlt
    isFieldLevelTitle := strTruthy fieldLevelTitle
    altLine := currentLocaleChecker cur.isMissingAlt isAltRequired
      (strTruthy fieldLevelAlt) isFieldLocalized locale defaultLocale
    titleLine := currentLocaleChecker cur.isMissingTitle isTitleRequired
      (strTruthy fieldLevelTitle) isFieldLocalized locale defaultLocale }

/-- What the component returns from `render`: the no-token inline error,
the loading spinner, or the full content (the two current-locale checker
lines, the aggregate sections data, and whether the field-level override
section shows). -/
inductive View where
  | tokenError
  | loading
  | content (titleLine altLine : CheckerLine) (recon : ReconAggregates)
      (overrideSection : Bool)
deriving DecidableEq

/-- Imperative effects the component fires on mount. -/
inductive Effect where
  | alert (msg : String)
  | fetchUpload (uploadId : String)
deriving DecidableEq

/-- The alert text shown when `currentUserAccessToken` is missing. -/
def missingTokenMessage : String :=
  "The Asset Localization Checker plugin does not have access to your user token. Please check the plugin settings."

/-- One render of the component as a pure function of the host context,
the fetched asset state, and the fetched site locales. Mirrors the
component body: early return on a falsy token; `isReady = assetData &&
metadata && localesInThisRecord` gates the loading spinner; otherwise the
two memos and `currentLocaleChecker` produce the content. -/
def renderComponent (ctx : Ctx) (assetData : Option Upload)
    (siteLocales : List String) : View :=
  if strFalsy ctx.currentUserAccessToken then
    .tokenError
  else
    let metadata := assetData.bind Upload.default_field_metadata
    let defaultLocale := siteLocales.headD ""
    match assetData, metadata, ctx.internalLocales with
    | some _, some m, some locales =>
      let r := reconcile (some m) (some locales) ctx.imageField.alt
        ctx.imageField.title ctx.locale
        ((ctx.required_alt_title.map AltTitleFlags.alt).getD false)
        ((ctx.required_alt_title.map AltTitleFlags.title).getD false)
        ctx.localized defaultLocale
      .content r.titleLine r.altLine r.aggregates
        (strTruthy ctx.imageField.alt || strTruthy ctx.imageField.title)
    | _, _, _ => .loading

/-- Effects fired when the component mounts: with a falsy token, only the
`ctx.alert` from the early-return branch; otherwise the initial
`fetchAsset` triggered by the `useEffect` on `upload_id`. -/
def mountEffects (ctx : Ctx) : List Effect :=
  if strFalsy ctx.currentUserAccessToken then
    [.alert missingTokenMessage]
  else
    [.fetchUpload ctx.imageField.upload_id]

/-! ### The earlier, list-based revision (`src/unnamed/part_002`) -/

/-- One element of the old revision's `metadataByLocale` array. -/
structure MetadataByLocaleEntry where
  locale : String
  alt : Option String
  title : Option String
deriving DecidableEq

/-- The old revision's `metadataByLocale` memo: `[]` unless both
`metadata` and `locales` are truthy, else one entry per record locale via
`flatMap`. -/
def metadataByLocale (metadata : Option Metadata)
    (locales : Option (List String)) : List MetadataByLocaleEntry :=
  match metadata, locales with
  | some m, some ls =>
    ls.flatMap fun locale =>
      [⟨locale, (m locale).bind LocaleMeta.alt, (m locale).bind LocaleMeta.title⟩]
  | _, _ => []

/-- The old revision's `missingAlts`: entries whose `alt` is falsy. -/
def missingAlts (metadata : Option Metadata)
    (locales : Option (List String)) : List MetadataByLocaleEntry :=
  (metadataByLocale metadata locales).filter fun e => strFalsy e.alt

/-- The old revision's `missingTitles`: entries whose `title` is falsy. -/
def missingTitles (metadata : Option Metadata)
    (locales : Option (List String)) : List MetadataByLocaleEntry :=
  (metadataByLocale metadata locales).filter fun e => strFalsy e.title

/-! ### Concrete inputs used by the scenario claims -/

/-- Asset metadata `{en: {alt:"cat"}, fr: {}}` from the spec scenarios. -/
def metaEnFr : Metadata := fun l =>
  if l == "en" then some ⟨some "cat", none⟩
  else if l == "fr" then some ⟨none, none⟩
  else none

/-- Asset metadata with a non-empty alt and title for `en`. -/
def metaCat : Metadata := fun l =>
  if l == "en" then some ⟨some "cat", some "dog"⟩ else none

/-- A context with a token present and no record locales loaded. -/
def ctxReady : Ctx :=
  ⟨some "token", ⟨"upload123", none, none⟩, none, none, "en", false, "Image"⟩

/-- A context whose `currentUserAccessToken` is absent. -/
def ctxNoToken : Ctx :=
  ⟨none, ⟨"upload123", none, none⟩, some ["en"], none, "en", false, "Image"⟩

/-! ### Helper lemmas -/

/-- The override indicator `!!v` is true exactly on non-null, non-empty
strings. -/
theorem strTruthy_eq_true_iff (v : Option String) :
    strTruthy v = true ↔ ∃ s, v = some s ∧ s ≠ "" := by
  cases v with
  | none => simp [strTruthy, strFalsy]
  | some s => simp [strTruthy, strFalsy]

/-- The missing-alt aggregate built by the loop is a sublist of the record
locales. -/
theorem localesMissingAlts_sublist (m : Metadata) (locales : List String) :
    List.Sublist (reconAggregatesLoop m locales).localesMissingAlts locales := by
  induction locales with
  | nil => exact List.Sublist.slnil
  | cons x rest ih =>
    show List.Sublist
      (if strFalsy ((m x).bind LocaleMeta.alt) then
        x :: (reconAggregatesLoop m rest).localesMissingAlts
      else (reconAggregatesLoop m rest).localesMissingAlts) (x :: rest)
    by_cases h : strFalsy ((m x).bind LocaleMeta.alt) = true
    · simpa [h] using List.Sublist.cons₂ x ih
    · simpa [h] using List.Sublist.cons x ih

/-- The missing-title aggregate built by the loop is a sublist of the
record locales. -/
theorem localesMissingTitles_sublist (m : Metadata) (locales : List String) :
    List.Sublist (reconAggregatesLoop m locales).localesMissingTitles locales := by
  induction locales with
  | nil => exact List.Sublist.slnil
  | cons x rest ih =>
    show List.Sublist
      (if strFalsy ((m x).bind LocaleMeta.title) then
        x :: (reconAggregatesLoop m rest).localesMissingTitles
      else (reconAggregatesLoop m rest).localesMissingTitles) (x :: rest)
    by_cases h : strFalsy ((m x).bind LocaleMeta.title) = true
    · simpa [h] using List.Sublist.cons₂ x ih
    · simpa [h] using List.Sublist.cons x ih

/-- A record locale whose asset-level alt is falsy lands in the
missing-alt aggregate. -/
theorem mem_localesMissingAlts_of (m : Metadata) (locales : List String)
    (l : String) (hmem : l ∈ locales)
    (h : strFalsy ((m l).bind LocaleMeta.alt) = true) :
    l ∈ (reconAggregatesLoop m locales).localesMissingAlts := by
  induction locales with
  | nil => cases hmem
  | cons x rest ih =>
    show l ∈ (if strFalsy ((m x).bind LocaleMeta.alt) then
        x :: (reconAggregatesLoop m rest).localesMissingAlts
      else (reconAggregatesLoop m rest).localesMissingAlts)
    rcases List.mem_cons.mp hmem with rfl | hmem2
    · simp [h]
    · by_cases hx : strFalsy ((m x).bind LocaleMeta.alt) = true
      · simp only [hx, if_true]
        exact List.mem_cons_of_mem x (ih hmem2)
      · simp only [hx, if_false]
        exact ih hmem2

/-- A record locale whose asset-level title is falsy lands in the
missing-title aggregate. -/
theorem mem_localesMissingTitles_of (m : Metadata) (locales : List String)
    (l : String) (hmem : l ∈ locales)
    (h : strFalsy ((m l).bind LocaleMeta.title) = true) :
    l ∈ (reconAggregatesLoop m locales).localesMissingTitles := by
  induction locales with
  | nil => cases hmem
  | cons x rest ih =>
    show l ∈ (if strFalsy ((m x).bind LocaleMeta.title) then
        x :: (reconAggregatesLoop m rest).localesMissingTitles
      else (reconAggregatesLoop m rest).localesMissingTitles)
    rcases List.mem_cons.mp hmem with rfl | hmem2
    · simp [h]
    · by_cases hx : strFalsy ((m x).bind LocaleMeta.title) = true
      · simp only [hx, if_true]
        exact List.mem_cons_of_mem x (ih hmem2)
      · simp only [hx, if_false]
        exact ih hmem2

/-- Looking a record locale up in the built metadata map returns exactly
the entry derived from the asset metadata at that locale. -/
theorem lookup_reconMap (m : Metadata) (locales : List String) (l : String)
    (hmem : l ∈ locales) :
    (reconAggregatesLoop m locales).assetLevelMetadataByLocale.lookup l
      = some ⟨(m l).bind LocaleMeta.alt, (m l).bind LocaleMeta.title⟩ := by
  induction locales with
  | nil => cases hmem
  | cons x rest ih =>
    show List.lookup l
      ((x, ⟨(m x).bind LocaleMeta.alt, (m x).bind LocaleMeta.title⟩)
        :: (reconAggregatesLoop m rest).assetLevelMetadataByLocale) = _
    by_cases hx : l = x
    · subst hx
      simp [List.lookup]
    · have hbeq : (l == x) = false := by simp [hx]
      rcases List.mem_cons.mp hmem with rfl | hmem2
      · exact absurd rfl hx
      · simp [List.lookup, hbeq]
        exact ih hmem2

/-- Mapping the old revision's missing-alt entries to their locale field
gives the new loop's missing-alt aggregate. -/
theorem missingAlts_map_locale (m : Metadata) (ls : List String) :
    ((ls.flatMap fun locale =>
        [(⟨locale, (m locale).bind LocaleMeta.alt,
          (m locale).bind LocaleMeta.title⟩ : MetadataByLocaleEntry)]).filter
      fun e => strFalsy e.alt).map MetadataByLocaleEntry.locale
      = (reconAggregatesLoop m ls).localesMissingAlts := by
  induction ls with
  | nil => rfl
  | cons x rest ih =>
    show ((((⟨x, (m x).bind LocaleMeta.alt,
        (m x).bind LocaleMeta.title⟩ : MetadataByLocaleEntry)
          :: rest.flatMap fun locale =>
            [(⟨locale, (m locale).bind LocaleMeta.alt,
              (m locale).bind LocaleMeta.title⟩ : MetadataByLocaleEntry)]).filter
        fun e => strFalsy e.alt).map MetadataByLocaleEntry.locale)
      = (if strFalsy ((m x).bind LocaleMeta.alt) then
          x :: (reconAggregatesLoop m rest).localesMissingAlts
        else (reconAggregatesLoop m rest).localesMissingAlts)
    by_cases h : strFalsy ((m x).bind LocaleMeta.alt) = true
    · simp [List.filter_cons, h, ih]
    · simp [List.filter_cons, h, ih]

/-- Mapping the old revision's missing-title entries to their locale field
gives the new loop's missing-title aggregate. -/
theorem missingTitles_map_locale (m : Metadata) (ls : List String) :
    ((ls.flatMap fun locale =>
        [(⟨locale, (m locale).bind LocaleMeta.alt,
          (m locale).bind LocaleMeta.title⟩ : MetadataByLocaleEntry)]).filter
      fun e => strFalsy e.title).map MetadataByLocaleEntry.locale
      = (reconAggregatesLoop m ls).localesMissingTitles := by
  induction ls with
  | nil => rfl
  | cons x rest ih =>
    show ((((⟨x, (m x).bind LocaleMeta.alt,
        (m x).bind LocaleMeta.title⟩ : MetadataByLocaleEntry)
          :: rest.flatMap fun locale =>
            [(⟨locale, (m locale).bind LocaleMeta.alt,
              (m locale).bind LocaleMeta.title⟩ : MetadataByLocaleEntry)]).filter
        fun e => strFalsy e.title).map MetadataByLocaleEntry.locale)
      = (if strFalsy ((m x).bind LocaleMeta.title) then
          x :: (reconAggregatesLoop m rest).localesMissingTitles
        else (reconAggregatesLoop m rest).localesMissingTitles)
    by_cases h : strFalsy ((m x).bind LocaleMeta.title) = true
    · simp [List.filter_cons, h, ih]
    · simp [List.filter_cons, h, ih]

/-! ### Claim theorems -/

/-- C1 (counterexample): with record locales ["en","fr"], asset metadata
{en: {alt:"cat"}, fr: {}} and field-level override alt "override", the
aggregate list `localesMissingAlts` is ["fr"], not [] as the claim states:
the aggregate memo reads only asset-level metadata and never consults the
field-level override. -/
theorem C1_counterexample :
    (reconcile (some metaEnFr) (some ["en", "fr"]) (some "override") none
      "en" false false false "en").aggregates.localesMissingAlts = ["fr"]
    ∧ (["fr"] : List String) ≠ [] := by
  decide

/-- C1 (amended): with record locales ["en","fr"], asset metadata
{en: {alt:"cat"}, fr: {}} and field-level override alt "override", the
effective alt is "override" for both en and fr, the override indicator is
set, and `localesMissingAlts` is ["fr"], since the aggregate lists reflect
asset-level metadata only and ignore the field-level override. -/
theorem C1_override_scenario :
    (reconcile (some metaEnFr) (some ["en", "fr"]) (some "override") none
      "en" false false false "en").current.actualAlt = "override"
    ∧ (reconcile (some metaEnFr) (some ["en", "fr"]) (some "override") none
      "fr" false false false "en").current.actualAlt = "override"
    ∧ (reconcile (some metaEnFr) (some ["en", "fr"]) (some "override") none
      "en" false false false "en").isFieldLevelAlt = true
    ∧ (reconcile (some metaEnFr) (some ["en", "fr"]) (some "override") none
      "en" false false false "en").aggregates.localesMissingAlts = ["fr"] := by
  decide

/-- C2 (counterexample): with asset-level alt "cat" for en and a
field-level alt equal to the empty string, the nullish-coalescing chain
keeps the empty override as the effective alt, yet the override indicator
(computed by truthiness) is false even though a field-level value exists,
so "isOverridden is true exactly when a field-level value exists" fails. -/
theorem C2_counterexample :
    (some "" : Option String) ≠ none
    ∧ (reconcile (some metaCat) (some ["en"]) (some "") none
        "en" false false false "en").current.actualAlt = ""
    ∧ ¬ ((reconcile (some metaCat) (some ["en"]) (some "") none
          "en" false false false "en").isFieldLevelAlt = true
        ↔ (some "" : Option String) ≠ none) := by
  decide

/-- C2 (amended): for every locale, the effective alt (resp. title) is the
field-level value if it is non-null (even when empty), else the asset-level
value stored for that locale, else the empty string; and the override
indicator is true exactly when the field-level value is non-null AND
non-empty (truthiness, not mere presence). -/
theorem C2_resolution_and_override_indicator (metadata : Option Metadata)
    (locales : Option (List String)) (fla flt : Option String)
    (locale : String) (rA rT fl : Bool) (dl : String) :
    (reconcile metadata locales fla flt locale rA rT fl dl).current.actualAlt
      = (jsNullish fla (((reconAggregates metadata
          locales).assetLevelMetadataByLocale.lookup locale).bind
            LocaleMeta.alt)).getD ""
    ∧ (reconcile metadata locales fla flt locale rA rT fl dl).current.actualTitle
      = (jsNullish flt (((reconAggregates metadata
          locales).assetLevelMetadataByLocale.lookup locale).bind
            LocaleMeta.title)).getD ""
    ∧ ((reconcile metadata locales fla flt locale rA rT fl dl).isFieldLevelAlt = true
        ↔ ∃ s, fla = some s ∧ s ≠ "")
    ∧ ((reconcile metadata locales fla flt locale rA rT fl dl).isFieldLevelTitle = true
        ↔ ∃ s, flt = some s ∧ s ≠ "") := by
  have key : ∀ assetMap : List (String × LocaleMeta),
      (currentLocaleLookup assetMap locale fla flt).actualAlt
        = (jsNullish fla ((assetMap.lookup locale).bind LocaleMeta.alt)).getD ""
      ∧ (currentLocaleLookup assetMap locale fla flt).actualTitle
        = (jsNullish flt ((assetMap.lookup locale).bind LocaleMeta.title)).getD "" := by
    intro assetMap
    cases h : assetMap.lookup locale with
    | none => cases fla <;> cases flt <;> simp [currentLocaleLookup, h, jsNullish]
    | some meta => simp [currentLocaleLookup, h]
  exact ⟨(key _).1, (key _).2,
    strTruthy_eq_true_iff fla, strTruthy_eq_true_iff flt⟩

/-- C3 (counterexample): the locale en is in the record but absent from the
asset metadata map, yet because a field-level alt and title are set, the
current-locale flags `isMissingAlt` / `isMissingTitle` are false, not true
as the claim states. (The locale still appears in both aggregate lists.) -/
theorem C3_counterexample :
    ((fun _ => none : Metadata) "en") = none
    ∧ (reconcile (some (fun _ => none)) (some ["en"]) (some "x") (some "y")
        "en" false false false "en").current.isMissingAlt = false
    ∧ (reconcile (some (fun _ => none)) (some ["en"]) (some "x") (some "y")
        "en" false false false "en").current.isMissingTitle = false := by
  decide

/-- C3 (amended): every record locale absent from the asset metadata map
is included in both aggregate missing lists, and its per-locale
`isMissingAlt` (resp. `isMissingTitle`) is true provided the corresponding
field-level value is falsy (no override set). -/
theorem C3_missing_locale_flags (m : Metadata) (locales : List String)
    (l : String) (fla flt : Option String) (hmem : l ∈ locales)
    (habs : m l = none) :
    l ∈ (reconAggregatesLoop m locales).localesMissingAlts
    ∧ l ∈ (reconAggregatesLoop m locales).localesMissingTitles
    ∧ (strFalsy fla = true →
        (currentLocaleLookup
          (reconAggregatesLoop m locales).assetLevelMetadataByLocale
          l fla flt).isMissingAlt = true)
    ∧ (strFalsy flt = true →
        (currentLocaleLookup
          (reconAggregatesLoop m locales).assetLevelMetadataByLocale
          l fla flt).isMissingTitle = true) := by
  have halt : (m l).bind LocaleMeta.alt = none := by rw [habs]; rfl
  have htitle : (m l).bind LocaleMeta.title = none := by rw [habs]; rfl
  have hlook := lookup_reconMap m locales l hmem
  rw [halt, htitle] at hlook
  refine ⟨mem_localesMissingAlts_of m locales l hmem (by rw [halt]; rfl),
    mem_localesMissingTitles_of m locales l hmem (by rw [htitle]; rfl),
    ?_, ?_⟩
  · intro hfla
    simp only [currentLocaleLookup, hlook]
    rw [hfla]
    rfl
  · intro hflt
    simp only [currentLocaleLookup, hlook]
    rw [hflt]
    rfl

/-- C3 (witness): instance of the amended claim at metadata with no
entries, record locales ["en"], and no field-level values. -/
theorem C3_missing_locale_flags_witness :
    "en" ∈ (reconAggregatesLoop (fun _ => none) ["en"]).localesMissingAlts
    ∧ (currentLocaleLookup
        (reconAggregatesLoop (fun _ => none) ["en"]).assetLevelMetadataByLocale
        "en" none none).isMissingAlt = true := by
  have h := C3_missing_locale_flags (fun _ => none) ["en"] "en" none none
    (by simp) rfl
  exact ⟨h.1, h.2.2.1 rfl⟩

/-- C4: two runs of the reconciliation that differ only in the
required-alt / required-title validator flags produce identical aggregate
lists and identical current-locale missing flags; required-ness feeds only
the severity of the rendered warning. -/
theorem C4_required_flags_noninterference (metadata : Option Metadata)
    (locales : Option (List String)) (fla flt : Option String)
    (locale : String) (rA rT rA2 rT2 fl : Bool) (dl : String) :
    (reconcile metadata locales fla flt locale rA rT fl dl).aggregates
      = (reconcile metadata locales fla flt locale rA2 rT2 fl dl).aggregates
    ∧ (reconcile metadata locales fla flt locale rA rT fl dl).current
      = (reconcile metadata locales fla flt locale rA2 rT2 fl dl).current :=
  ⟨rfl, rfl⟩

/-- C5: for every asset metadata map and record-locale sequence, the
aggregate missing-alt and missing-title lists are ordered subsequences of
the record locales (so they contain only record locales, in record
order). -/
theorem C5_missing_lists_sublist (metadata : Option Metadata)
    (locales : List String) :
    List.Sublist
      (reconAggregates metadata (some locales)).localesMissingAlts locales
    ∧ List.Sublist
      (reconAggregates metadata (some locales)).localesMissingTitles locales := by
  cases metadata with
  | none => exact ⟨List.nil_sublist _, List.nil_sublist _⟩
  | some m =>
    exact ⟨localesMissingAlts_sublist m locales,
      localesMissingTitles_sublist m locales⟩

/-- C6: with record locales ["en","fr"], asset metadata
{en: {alt:"cat"}, fr: {}} and no field-level override, the reconciliation
yields `localesMissingAlts = ["fr"]` and effective alt "cat" for en. -/
theorem C6_no_override_scenario :
    (reconcile (some metaEnFr) (some ["en", "fr"]) none none
      "en" false false false "en").aggregates.localesMissingAlts = ["fr"]
    ∧ (reconcile (some metaEnFr) (some ["en", "fr"]) none none
      "en" false false false "en").current.actualAlt = "cat" := by
  decide

/-- C7: whenever the asset data, its metadata map, or the record-locale
list is absent (and the token is present), the component renders the
loading view, and the aggregate memo yields an empty locale-metadata map
and empty missing lists. -/
theorem C7_not_ready_loading (ctx : Ctx) (assetData : Option Upload)
    (siteLocales : List String)
    (htok : strFalsy ctx.currentUserAccessToken = false)
    (h : assetData = none
      ∨ assetData.bind Upload.default_field_metadata = none
      ∨ ctx.internalLocales = none) :
    renderComponent ctx assetData siteLocales = View.loading
    ∧ reconAggregates (assetData.bind Upload.default_field_metadata)
        ctx.internalLocales = ⟨[], [], []⟩ := by
  cases hA : assetData with
  | none =>
    cases hL : ctx.internalLocales <;>
      simp [renderComponent, reconAggregates, htok, hL]
  | some u =>
    cases hm : u.default_field_metadata with
    | none =>
      cases hL : ctx.internalLocales <;>
        simp [renderComponent, reconAggregates, htok, hm, hL]
    | some m =>
      cases hL : ctx.internalLocales with
      | none => simp [renderComponent, reconAggregates, htok, hm, hL]
      | some ls =>
        rw [hA] at h
        have hmd : (some u).bind Upload.default_field_metadata = some m := by
          rw [show (some u).bind Upload.default_field_metadata
            = u.default_field_metadata from rfl, hm]
        rcases h with h | h | h
        · simp at h
        · rw [hmd] at h
          simp at h
        · rw [hL] at h
          simp at h

/-- C7 (witness): instance with the asset data not yet fetched and no
record locales in the form values. -/
theorem C7_not_ready_loading_witness :
    renderComponent ctxReady none ["en"] = View.loading
    ∧ reconAggregates ((none : Option Upload).bind Upload.default_field_metadata)
        ctxReady.internalLocales = ⟨[], [], []⟩ :=
  C7_not_ready_loading ctxReady none ["en"] rfl (Or.inl rfl)

/-- C8: when the host context provides no user access token, the component
renders the inline token error, the only mount effect is the host alert
with the missing-token message, and no fetch effect is issued. -/
theorem C8_missing_token (ctx : Ctx) (assetData : Option Upload)
    (siteLocales : List String)
    (h : strFalsy ctx.currentUserAccessToken = true) :
    renderComponent ctx assetData siteLocales = View.tokenError
    ∧ mountEffects ctx = [Effect.alert missingTokenMessage]
    ∧ ∀ uid, Effect.fetchUpload uid ∉ mountEffects ctx := by
  refine ⟨by simp [renderComponent, h], by simp [mountEffects, h], ?_⟩
  intro uid
  simp [mountEffects, h]

/-- C8 (witness): instance at a context whose token is absent. -/
theorem C8_missing_token_witness :
    renderComponent ctxNoToken none ["en"] = View.tokenError
    ∧ mountEffects ctxNoToken = [Effect.alert missingTokenMessage]
    ∧ ∀ uid, Effect.fetchUpload uid ∉ mountEffects ctxNoToken :=
  C8_missing_token ctxNoToken none ["en"] rfl

/-- C9: with asset-level alt "cat" for en and a field-level alt equal to
the empty string, the effective alt is the empty string (the
nullish-coalescing chain keeps the override), yet `isMissingAlt` is false
and the override indicator `isFieldLevel` (computed by truthiness) is also
false: presence of a field-level value is judged inconsistently between
resolution and flagging. -/
theorem C9_empty_override_inconsistency :
    (metaCat "en").bind LocaleMeta.alt = some "cat"
    ∧ (reconcile (some metaCat) (some ["en"]) (some "") none
        "en" false false false "en").current.actualAlt = ""
    ∧ (reconcile (some metaCat) (some ["en"]) (some "") none
        "en" false false false "en").current.isMissingAlt = false
    ∧ (reconcile (some metaCat) (some ["en"]) (some "") none
        "en" false false false "en").isFieldLevelAlt = false := by
  decide

/-- C10: for every asset metadata map and record-locale sequence (and with
the same not-ready guards), the earlier list-based revision and the current
Map-based component compute the same sequences of missing-alt and
missing-title locales. -/
theorem C10_list_map_refinement (metadata : Option Metadata)
    (locales : Option (List String)) :
    (missingAlts metadata locales).map MetadataByLocaleEntry.locale
      = (reconAggregates metadata locales).localesMissingAlts
    ∧ (missingTitles metadata locales).map MetadataByLocaleEntry.locale
      = (reconAggregates metadata locales).localesMissingTitles := by
  cases metadata with
  | none => cases locales <;> exact ⟨rfl, rfl⟩
  | some m =>
    cases locales with
    | none => exact ⟨rfl, rfl⟩
    | some ls => exact ⟨missingAlts_map_locale m ls, missingTitles_map_locale m ls⟩

end AssetLocalizationChecker
